import Mathlib

/-!
Verification development for the AgentPad backend flow execution engine
(`BackendFlowExecutor` in the flow-executor service, together with the
approval-wait protocol in `userApprovalNode.js` / `webhookHandler.js`).

The JavaScript source is shallowly embedded: JS values become the `Value`
inductive, JS numbers are modelled as exact fractions (`Frac`, an integer
numerator with a positive integer denominator) extended with `nan` and
signed infinity, mutable executor state becomes explicit state passing
(`ExecState`), exceptions become an `Except`-style outcome, and the
(potentially non-terminating) recursive graph walk takes an explicit fuel
parameter.  `JSON.parse` and the external collaborator node executors
(blockchain / LLM / chat / market-data / contract nodes) are opaque to the
engine's control flow and are modelled as parameters.
-/

namespace AgentPad

/-! ## JS values -/

mutual

inductive Value where
  | str (s : String)
  | num (n : NumR)
  | bool (b : Bool)
  | null
  | undefined
  | arr (xs : ValueList)
  | obj (fields : ValueAssoc)
deriving DecidableEq, Repr

/-- A JS number: an exact fraction, NaN, or a signed infinity.
Real JS numbers are IEEE doubles; the model uses exact arithmetic, which
agrees with JS on the small integer computations the engine performs. -/
inductive NumR where
  | fin (q : Frac)
  | nan
  | inf (neg : Bool)
deriving DecidableEq, Repr

/-- An unnormalised fraction.  All constructors used by the model keep the
denominator positive; equality and order are via cross-multiplication. -/
inductive Frac where
  | mk (n : Int) (d : Int)
deriving DecidableEq, Repr

inductive ValueList where
  | nil
  | cons (v : Value) (rest : ValueList)
deriving DecidableEq, Repr

/-- A JS object: insertion-ordered own string-keyed properties.
Prototype-chain properties are not modelled. -/
inductive ValueAssoc where
  | nil
  | cons (k : String) (v : Value) (rest : ValueAssoc)
deriving DecidableEq, Repr

end

def Frac.n : Frac → Int
  | .mk n _ => n

def Frac.d : Frac → Int
  | .mk _ d => d

/-- Embed an integer as a fraction with denominator 1. -/
def Frac.ofInt (i : Int) : Frac := .mk i 1

def Frac.addF (a b : Frac) : Frac := .mk (a.n * b.d + b.n * a.d) (a.d * b.d)

def Frac.subF (a b : Frac) : Frac := .mk (a.n * b.d - b.n * a.d) (a.d * b.d)

def Frac.mulF (a b : Frac) : Frac := .mk (a.n * b.n) (a.d * b.d)

/-- Semantic equality of fractions (cross-multiplication; denominators are
kept positive by construction). -/
def Frac.eqb (a b : Frac) : Bool := a.n * b.d == b.n * a.d

def Frac.ltb (a b : Frac) : Bool := a.n * b.d < b.n * a.d

def Frac.isZero (a : Frac) : Bool := a.n == 0

/-- Division of finite fractions, assuming the divisor is nonzero; keeps the
denominator positive. -/
def Frac.divF (a b : Frac) : Frac :=
  let n := a.n * b.d
  let d := a.d * b.n
  if d < 0 then .mk (-n) (-d) else .mk n d

/-! Arithmetic on JS numbers with NaN / infinity propagation (IEEE-style,
minus signed zero, which exact fractions cannot represent). -/

def NumR.addN : NumR → NumR → NumR
  | .nan, _ => .nan
  | _, .nan => .nan
  | .inf s, .inf t => if s == t then .inf s else .nan
  | .inf s, .fin _ => .inf s
  | .fin _, .inf t => .inf t
  | .fin a, .fin b => .fin (a.addF b)

def NumR.subN : NumR → NumR → NumR
  | .nan, _ => .nan
  | _, .nan => .nan
  | .inf s, .inf t => if s == t then .nan else .inf s
  | .inf s, .fin _ => .inf s
  | .fin _, .inf t => .inf (!t)
  | .fin a, .fin b => .fin (a.subF b)

def NumR.mulN : NumR → NumR → NumR
  | .nan, _ => .nan
  | _, .nan => .nan
  | .inf s, .inf t => .inf (s != t)
  | .inf s, .fin b => if b.isZero then .nan else .inf (s != decide (b.n < 0))
  | .fin a, .inf t => if a.isZero then .nan else .inf (t != decide (a.n < 0))
  | .fin a, .fin b => .fin (a.mulF b)

def NumR.divN : NumR → NumR → NumR
  | .nan, _ => .nan
  | _, .nan => .nan
  | .inf _, .inf _ => .nan
  | .inf s, .fin b => .inf (s != decide (b.n < 0))
  | .fin _, .inf _ => .fin (.ofInt 0)
  | .fin a, .fin b =>
    if b.isZero then
      if a.isZero then .nan else .inf (decide (a.n < 0))
    else .fin (a.divF b)

/-- Strict (`===`) equality of JS numbers: `NaN !== NaN`. -/
def NumR.eqN : NumR → NumR → Bool
  | .nan, _ => false
  | _, .nan => false
  | .inf s, .inf t => s == t
  | .fin a, .fin b => a.eqb b
  | _, _ => false

def NumR.ltN : NumR → NumR → Bool
  | .nan, _ => false
  | _, .nan => false
  | .inf s, .inf t => s && !t
  | .inf s, .fin _ => s
  | .fin _, .inf t => !t
  | .fin a, .fin b => a.ltb b

/-! ## Character and string utilities

Core `String` functions are reimplemented by structural recursion over the
character list so that concrete runs reduce inside the kernel.  They mirror
the JS string operations the engine uses. -/

def isWs (c : Char) : Bool :=
  c == ' ' || c == '\t' || c == '\n' || c == '\r'

def dropWsLeft : List Char → List Char
  | [] => []
  | c :: cs => if isWs c then dropWsLeft cs else c :: cs

/-- JS `String.prototype.trim` (restricted to ASCII whitespace). -/
def jsTrim (s : String) : String :=
  .mk ((dropWsLeft ((dropWsLeft s.data).reverse)).reverse)

/-- Split a character list at every occurrence of `sep` (JS `split(sep)` for
a one-character separator). -/
def splitCharList (sep : Char) : List Char → List (List Char)
  | [] => [[]]
  | c :: cs =>
    let r := splitCharList sep cs
    if c == sep then [] :: r
    else match r with
      | [] => [[c]]
      | y :: ys => (c :: y) :: ys

/-- JS `s.split('.')`. -/
def splitDots (s : String) : List String :=
  (splitCharList '\x2e' s.data).map String.mk

def containsChar (s : String) (c : Char) : Bool :=
  s.data.any (· == c)

def listIsPrefixOf : List Char → List Char → Bool
  | [], _ => true
  | _ :: _, [] => false
  | a :: as, b :: bs => a == b && listIsPrefixOf as bs

/-- JS `s.startsWith(p)`. -/
def strStartsWith (s p : String) : Bool :=
  listIsPrefixOf p.data s.data

def isDigit (c : Char) : Bool := '0' ≤ c && c ≤ '9'

def digitVal (c : Char) : Nat := c.toNat - '0'.toNat

def digitsToNat (acc : Nat) : List Char → Nat
  | [] => acc
  | c :: cs => digitsToNat (acc * 10 + digitVal c) cs

/-- Test for the strict numeric-literal regex used by the value resolver:
an optional minus sign, then digits, then an optional point, then at least
one digit. -/
def numericLitTest (s : String) : Bool :=
  let cs := match s.data with
    | '-' :: rest => rest
    | cs => cs
  let intPart := cs.takeWhile isDigit
  match cs.drop intPart.length with
  | [] => !intPart.isEmpty
  | '\x2e' :: frac => !frac.isEmpty && frac.all isDigit
  | _ => false

/-- Decimal-string parsing shared by `Number(...)` and the resolver's
numeric conversion: an optional sign, an integer part and an optional
fractional part.  Strings outside this shape (hex, exponents, `Infinity`)
are treated as NaN; the engine's configs use plain decimal literals. -/
def parseDecimal (s : String) : Option Frac :=
  let (neg, cs) : Bool × List Char := match s.data with
    | '-' :: rest => (true, rest)
    | '+' :: rest => (false, rest)
    | cs => (false, cs)
  let intPart := cs.takeWhile isDigit
  let rest := cs.drop intPart.length
  let build (ip fp : List Char) : Option Frac :=
    if ip.isEmpty && fp.isEmpty then none
    else
      let n : Int := Int.ofNat (digitsToNat (digitsToNat 0 ip) fp)
      let d : Int := Int.ofNat (10 ^ fp.length)
      some (.mk (if neg then -n else n) d)
  match rest with
  | [] => build intPart []
  | '\x2e' :: frac => if frac.all isDigit then build intPart frac else none
  | _ => none

/-- JS `Number(v)` (ToNumber on the values the engine manipulates). -/
def jsToNumber (v : Value) : NumR :=
  match v with
  | .num n => n
  | .bool b => .fin (.ofInt (if b then 1 else 0))
  | .null => .fin (.ofInt 0)
  | .undefined => .nan
  | .str s =>
    let t := jsTrim s
    if t.data.isEmpty then .fin (.ofInt 0)
    else match parseDecimal t with
      | some q => .fin q
      | none => .nan
  | .arr _ => .nan
  | .obj _ => .nan

def intToString (i : Int) : String :=
  match i with
  | .ofNat n => .mk (Nat.toDigits 10 n)
  | .negSucc n => .mk ('-' :: Nat.toDigits 10 (n + 1))

/-- Render a JS number.  Integers render exactly as JS does; non-integral
fractions use a `num/den` fallback (the engine never templates them). -/
def numToString (n : NumR) : String :=
  match n with
  | .nan => "NaN"
  | .inf false => "Infinity"
  | .inf true => "-Infinity"
  | .fin q =>
    if q.d = 1 then intToString q.n
    else intToString q.n ++ "/" ++ intToString q.d

mutual

/-- JS `String(v)`. -/
def jsToString (v : Value) : String :=
  match v with
  | .str s => s
  | .num n => numToString n
  | .bool b => if b then "true" else "false"
  | .null => "null"
  | .undefined => "undefined"
  | .arr xs => joinElems xs
  | .obj _ => "[object Object]"

/-- JS array `toString`: elements joined by commas, with `null` and
`undefined` elements rendered empty. -/
def joinElems : ValueList → String
  | .nil => ""
  | .cons v .nil =>
    (match v with
     | .null => ""
     | .undefined => ""
     | _ => jsToString v)
  | .cons v rest =>
    (match v with
     | .null => ""
     | .undefined => ""
     | _ => jsToString v) ++ "," ++ joinElems rest

end

/-- JS truthiness. -/
def truthy (v : Value) : Bool :=
  match v with
  | .str s => !s.data.isEmpty
  | .num (.fin q) => !q.isZero
  | .num .nan => false
  | .num (.inf _) => true
  | .bool b => b
  | .null => false
  | .undefined => false
  | .arr _ => true
  | .obj _ => true

/-- JS strict equality `===`.  Object and array operands are compared
structurally (the JS reference identity is not representable in a pure
embedding; the engine only compares primitives). -/
def jsStrictEq (a b : Value) : Bool :=
  match a, b with
  | .str x, .str y => x == y
  | .num x, .num y => x.eqN y
  | .bool x, .bool y => x == y
  | .null, .null => true
  | .undefined, .undefined => true
  | .arr x, .arr y => x == y
  | .obj x, .obj y => x == y
  | _, _ => false

/-- ToPrimitive for the binary `+`: arrays and objects convert via their
string rendering, primitives pass through. -/
def isStringish (v : Value) : Bool :=
  match v with
  | .str _ => true
  | .arr _ => true
  | .obj _ => true
  | _ => false

/-- JS binary `+`: string concatenation when either primitive operand is a
string, numeric addition otherwise. -/
def jsAdd (a b : Value) : Value :=
  if isStringish a || isStringish b then .str (jsToString a ++ jsToString b)
  else .num ((jsToNumber a).addN (jsToNumber b))

def jsSub (a b : Value) : Value := .num ((jsToNumber a).subN (jsToNumber b))

def jsMul (a b : Value) : Value := .num ((jsToNumber a).mulN (jsToNumber b))

def jsDiv (a b : Value) : Value := .num ((jsToNumber a).divN (jsToNumber b))

def strLtb : List Char → List Char → Bool
  | [], [] => false
  | [], _ :: _ => true
  | _ :: _, [] => false
  | a :: as, b :: bs => a < b || (a == b && strLtb as bs)

/-- JS `<`: lexicographic when both operands are strings, numeric with
NaN-is-false otherwise. -/
def jsLess (a b : Value) : Bool :=
  match a, b with
  | .str x, .str y => strLtb x.data y.data
  | _, _ => (jsToNumber a).ltN (jsToNumber b)

def jsGreater (a b : Value) : Bool := jsLess b a

/-! ## Object / array property access -/

def ValueAssoc.lookup : ValueAssoc → String → Option Value
  | .nil, _ => none
  | .cons k v rest, key => if k == key then some v else rest.lookup key

def ValueAssoc.hasKey (m : ValueAssoc) (key : String) : Bool :=
  (m.lookup key).isSome

/-- JS property assignment on a plain object: replace in place when the key
exists, append otherwise (insertion order preserved). -/
def ValueAssoc.set : ValueAssoc → String → Value → ValueAssoc
  | .nil, key, v => .cons key v .nil
  | .cons k w rest, key, v =>
    if k == key then .cons k v rest else .cons k w (rest.set key v)

def ValueList.length : ValueList → Nat
  | .nil => 0
  | .cons _ rest => 1 + rest.length

def ValueList.getIdx : ValueList → Nat → Option Value
  | .nil, _ => none
  | .cons v _, 0 => some v
  | .cons _ rest, n + 1 => rest.getIdx n

/-- A canonical array-index key (`"0"`, `"17"`, ... with no leading zero),
matching the keys the JS `in` operator recognises on arrays. -/
def canonIndex (p : String) : Option Nat :=
  match p.data with
  | [] => none
  | ['0'] => some 0
  | c :: cs =>
    if c ≠ '0' && (c :: cs).all isDigit then some (digitsToNat 0 (c :: cs))
    else none

/-- JS `part in current` for the plain-data values the engine stores (own
properties of objects; indices and `length` of arrays). -/
def hasProp (v : Value) (p : String) : Bool :=
  match v with
  | .obj fields => fields.hasKey p
  | .arr xs =>
    p == "length" ||
      (match canonIndex p with
       | some i => decide (i < xs.length)
       | none => false)
  | _ => false

def getProp (v : Value) (p : String) : Value :=
  match v with
  | .obj fields => (fields.lookup p).getD .undefined
  | .arr xs =>
    if p == "length" then .num (.fin (.ofInt xs.length))
    else match canonIndex p with
      | some i => (xs.getIdx i).getD .undefined
      | none => .undefined
  | _ => .undefined

/-- `typeof v === 'object'` (true for objects, arrays and `null`). -/
def isObjType (v : Value) : Bool :=
  match v with
  | .obj _ => true
  | .arr _ => true
  | .null => true
  | _ => false

/-! ## Flow data model

`Node.config` models the JS `node.data.config` object; option-typed fields
are `none` when the config omits the property. -/

structure VarDecl where
  name : String
  type : Option String := none
  defaultValue : Value := .undefined
deriving DecidableEq, Repr

structure Config where
  -- `varDecls` models the JS `config.variables` list of the start node
  -- (the name `variables` is reserved in Lean)
  value1 : Value := .undefined
  value2 : Value := .undefined
  operation : Option String := none
  operator : Option String := none
  outputVariable : Option String := none
  variableName : Option String := none
  value : Value := .undefined
  timerType : Option String := none
  duration : Value := .undefined
  unit : Option String := none
  repeatCount : Value := .undefined
  varDecls : List VarDecl := []
deriving DecidableEq, Repr

structure Node where
  id : String
  type : String
  config : Config := {}
deriving DecidableEq, Repr

structure Edge where
  source : String
  target : String
  sourceHandle : Option String := none
deriving DecidableEq, Repr

structure Flow where
  nodes : List Node
  edges : List Edge
deriving DecidableEq, Repr

/-- `Object.fromEntries(nodes.map(n => [n.id, n]))` followed by a key
lookup: the last node with a given id wins. -/
def nodeMapGet (nodes : List Node) (id : String) : Option Node :=
  nodes.foldl (fun acc n => if n.id == id then some n else acc) none

/-- JS `config.field || dflt` for a string-valued config field. -/
def strOr (o : Option String) (dflt : String) : String :=
  match o with
  | some s => if s.data.isEmpty then dflt else s
  | none => dflt

/-- JS truthiness of an optional string config field. -/
def truthyStr (o : Option String) : Bool :=
  match o with
  | some s => !s.data.isEmpty
  | none => false

/-! ## Value Resolver (`resolveValue` and the template helpers) -/

section Resolver

variable (jsonParse : String → Option Value)

/-- The base-variable adjustment in the dotted-path branch: if the base
value is a string, `JSON.parse` it, keeping the string on a parse error. -/
def parseBase (c : Value) : Value :=
  match c with
  | .str s => (jsonParse s).getD c
  | _ => c

/-- The per-hop adjustment: a string hop value is replaced by its JSON
parse only when the parse succeeds and yields a truthy object. -/
def parsedIfObj (c : Value) : Value :=
  match c with
  | .str s =>
    match jsonParse s with
    | some parsed => if truthy parsed && isObjType parsed then parsed else c
    | none => c
  | _ => c

/-- The dotted-path descent loop of `resolveValue`; `none` models the
`return val` taken when a hop fails to find the key. -/
def descendPath : Value → List String → Option Value
  | cur, [] => some cur
  | cur, p :: rest =>
    if truthy cur && isObjType cur && hasProp cur p then
      descendPath (parsedIfObj jsonParse (getProp cur p)) rest
    else none

/-- The numeric tail of `resolveValue` for string inputs that are neither a
variable name nor a successfully descended dotted path. -/
def resolveValueNumericTail (s : String) : Value :=
  if (jsTrim s).data.isEmpty then .num (.fin (.ofInt 0))
  else if strStartsWith s "0x" then .str s
  else if numericLitTest (jsTrim s) then
    match parseDecimal (jsTrim s) with
    | some q => .num (.fin q)
    | none => .str s
  else .str s

/-- `resolveValue(val)`: direct variable reference, dotted-path descent
(with transparent JSON parsing), then the literal / numeric fallbacks. -/
def resolveValue (vars : ValueAssoc) (val : Value) : Value :=
  match val with
  | .str s =>
    match vars.lookup s with
    | some v => v
    | none =>
      if containsChar s '\x2e' then
        match splitDots s with
        | [] => resolveValueNumericTail s
        | base :: rest =>
          if !base.data.isEmpty then
            match vars.lookup base with
            | some cur =>
              match descendPath jsonParse (parseBase jsonParse cur) rest with
              | some v => v
              | none => .str s
            | none => resolveValueNumericTail s
          else resolveValueNumericTail s
      else resolveValueNumericTail s
  | _ => val

/-- The loop of `resolveVariablePath`: walk the parts, JSON-parsing string
hops, returning `undefined` when a hop fails. -/
def resolvePathGo : Value → List String → Value
  | cur, [] => cur
  | cur, p :: rest =>
    if truthy cur && isObjType cur && hasProp cur p then
      resolvePathGo (getProp cur p) rest
    else match cur with
      | .str s =>
        (match jsonParse s with
         | some parsed =>
           if truthy parsed && isObjType parsed && hasProp parsed p then
             resolvePathGo (getProp parsed p) rest
           else .undefined
         | none => .undefined)
      | _ => .undefined

/-- `resolveVariablePath(path)`: dotted descent starting at the variable
store itself. -/
def resolveVariablePath (vars : ValueAssoc) (path : String) : Value :=
  resolvePathGo jsonParse (.obj vars) (splitDots path)

end Resolver

/-! ### The `/\{([^}]+)\}/g` template scan -/

/-- Scanner for the placeholder regex: `none` state outside a candidate
match, `some acc` inside one (characters after an opening brace). -/
def regexScanAux : List Char → Option (List Char) → List (List Char)
  | [], _ => []
  | c :: cs, none =>
    if c == '\x7b' then regexScanAux cs (some [])
    else regexScanAux cs none
  | c :: cs, some acc =>
    if c == '\x7d' then
      if acc.isEmpty then regexScanAux cs none
      else ('\x7b' :: (acc.reverse ++ ['\x7d'])) :: regexScanAux cs none
    else regexScanAux cs (some (c :: acc))

/-- `str.match(/\{([^}]+)\}/g)`: every placeholder occurrence, in order. -/
def regexMatches (s : String) : List String :=
  (regexScanAux s.data none).map String.mk

/-- `match.slice(1, -1)`. -/
def stripBraces (m : String) : String :=
  .mk ((m.data.drop 1).dropLast)

def replaceFirstAux (pat repl : List Char) : List Char → Option (List Char)
  | [] => if pat.isEmpty then some repl else none
  | c :: cs =>
    if listIsPrefixOf pat (c :: cs) then
      some (repl ++ (c :: cs).drop pat.length)
    else (replaceFirstAux pat repl cs).map (c :: ·)

/-- JS `s.replace(pat, repl)` with a string pattern: first occurrence only
(`$`-substitution patterns in the replacement are not modelled). -/
def replaceFirst (s pat repl : String) : String :=
  match replaceFirstAux pat.data repl.data s.data with
  | some r => .mk r
  | none => s

/-- The substitution loop of `resolveVariablesInString`: the match list is
computed once from the original string, replacements apply sequentially. -/
def substMatches (jsonParse : String → Option Value) (vars : ValueAssoc) :
    List String → String → String
  | [], acc => acc
  | m :: ms, acc =>
    let v := resolveVariablePath jsonParse vars (stripBraces m)
    if v = Value.undefined then substMatches jsonParse vars ms acc
    else substMatches jsonParse vars ms (replaceFirst acc m (jsToString v))

/-- `resolveVariablesInString(str)` on string input. -/
def resolveVariablesInString (jsonParse : String → Option Value)
    (vars : ValueAssoc) (str : String) : String :=
  substMatches jsonParse vars (regexMatches str) str

/-! ## Executor state and outcomes -/

/-- The mutable fields of `BackendFlowExecutor`, plus the `visited` set
(passed by reference through the whole recursion of one run, hence state)
and `startLog`, pure instrumentation recording node ids in dispatch order
(the `[START]` logger lines emitted just before `executeNode`). -/
structure ExecState where
  -- `vars` models `this.variables` (the name `variables` is reserved)
  vars : ValueAssoc := .nil
  nodeResults : ValueAssoc := .nil
  shouldStop : Bool := false
  visited : List String := []
  startLog : List String := []
deriving DecidableEq, Repr

/-- Outcome of one node executor: a returned value, a thrown JS error, or
fuel exhaustion of the model. -/
inductive NodeOutcome where
  | ok (v : Value)
  | thrown (msg : String)
  | fuelOut
deriving DecidableEq, Repr

/-- Outcome of a recursive visit (the JS function returns no value). -/
inductive Step where
  | done
  | thrown (msg : String)
  | fuelOut
deriving DecidableEq, Repr

/-- An external collaborator executor (blockchain / LLM / logger / chat /
approval / market-data / contract nodes): it may read and write the
variable store and the node-result log and returns a value or throws, but
never touches the stop flag, the visited set, or the traversal. -/
def ExtExec : Type :=
  Node → ValueAssoc → ValueAssoc → NodeOutcome × ValueAssoc × ValueAssoc

def toLowerAscii (c : Char) : Char :=
  if 'A' ≤ c && c ≤ 'Z' then Char.ofNat (c.toNat + 32) else c

def strToLower (s : String) : String := .mk (s.data.map toLowerAscii)

/-- JS `a || b` on values. -/
def jsOr (a b : Value) : Value := if truthy a then a else b

/-- `Number(x) || 0`. -/
def numOrZero (n : NumR) : NumR :=
  match n with
  | .nan => .fin (.ofInt 0)
  | .fin q => if q.isZero then .fin (.ofInt 0) else .fin q
  | .inf s => .inf s

/-! ## Pure node executors -/

section Executors

variable (jsonParse : String → Option Value)

/-- Start-node coercion of one declared variable's provided default. -/
def coerceDeclared (decl : VarDecl) : Value :=
  if decl.defaultValue ≠ Value.undefined then
    let provided := decl.defaultValue
    match decl.type with
    | some "number" =>
      let n := match provided with
        | .num m => m
        | _ => jsToNumber provided
      if n = NumR.nan then .num (.fin (.ofInt 0)) else .num n
    | some "boolean" =>
      (match provided with
       | .bool _ => provided
       | _ =>
         .bool (["true", "1", "yes", "on"].contains
           (strToLower (jsToString provided))))
    | some "array" =>
      (match provided with
       | .arr _ => provided
       | _ =>
         let d := (jsonParse (jsToString provided)).getD (.arr .nil)
         match d with
         | .arr _ => d
         | _ => .arr .nil)
    | some "object" =>
      (match provided with
       | .obj _ => provided
       | _ =>
         let d := (jsonParse (jsToString provided)).getD (.obj .nil)
         match d with
         | .obj _ => d
         | _ => .obj .nil)
    | some "string" => .str (jsToString provided)
    | _ => provided
  else
    match decl.type with
    | some "number" => .num (.fin (.ofInt 0))
    | some "string" => .str ""
    | some "boolean" => .bool false
    | some "array" => .arr .nil
    | some "object" => .obj .nil
    | _ => .null

def initVarsFrom : List VarDecl → ValueAssoc → ValueAssoc
  | [], vars => vars
  | d :: ds, vars => initVarsFrom ds (vars.set d.name (coerceDeclared jsonParse d))

/-- `executeStartNode`: initialise the variable store from the declared
variables, returning `null`. -/
def executeStartNode (node : Node) (s : ExecState) : NodeOutcome × ExecState :=
  (.ok .null, {s with vars := initVarsFrom jsonParse node.config.varDecls s.vars})

/-- `executeVariableNode`: set / get / increment / decrement. -/
def executeVariableNode (node : Node) (s : ExecState) : NodeOutcome × ExecState :=
  let config := node.config
  if !truthyStr config.variableName then
    (.thrown "Variable node missing variableName", s)
  else
    let variableName := config.variableName.getD ""
    let vars := s.vars
    let newVars? : Option ValueAssoc :=
      match strOr config.operation "set" with
      | "set" => some (vars.set variableName (resolveValue jsonParse vars config.value))
      | "get" =>
        some (if vars.hasKey variableName then vars else vars.set variableName .undefined)
      | "increment" =>
        if !(vars.hasKey variableName) then
          some (vars.set variableName (.num (.fin (.ofInt 0))))
        else
          let currentValue := (vars.lookup variableName).getD .undefined
          let currentValue := match currentValue with
            | .str str1 =>
              (match jsToNumber (.str str1) with
               | .nan => Value.num (.fin (.ofInt 0))
               | n => .num n)
            | _ => currentValue
          some (vars.set variableName (jsAdd currentValue (.num (.fin (.ofInt 1)))))
      | "decrement" =>
        if !(vars.hasKey variableName) then
          some (vars.set variableName (.num (.fin (.ofInt 0))))
        else
          let currentValue := (vars.lookup variableName).getD .undefined
          let currentValue := match currentValue with
            | .str str1 =>
              (match jsToNumber (.str str1) with
               | .nan => Value.num (.fin (.ofInt 0))
               | n => .num n)
            | _ => currentValue
          some (vars.set variableName (jsSub currentValue (.num (.fin (.ofInt 1)))))
      | _ => none
    match newVars? with
    | none =>
      (.thrown ("Unknown variable operation: " ++ strOr config.operation "set"), s)
    | some vars' =>
      (.ok ((vars'.lookup variableName).getD .undefined), {s with vars := vars'})

/-- `executeArithmeticNode`: add / subtract / multiply / divide over
resolved operands, with the divide-by-zero guard returning `null`. -/
def executeArithmeticNode (node : Node) (s : ExecState) : NodeOutcome × ExecState :=
  let config := node.config
  let v1 := resolveValue jsonParse s.vars config.value1
  let v2 := resolveValue jsonParse s.vars config.value2
  let result? : Option Value :=
    match config.operation with
    | some "add" => some (jsAdd v1 v2)
    | some "subtract" => some (jsSub v1 v2)
    | some "multiply" => some (jsMul v1 v2)
    | some "divide" =>
      some (if !jsStrictEq v2 (.num (.fin (.ofInt 0))) then jsDiv v1 v2 else .null)
    | _ => none
  match result? with
  | none => (.thrown "Unknown arithmetic operation", s)
  | some result =>
    let s :=
      if truthyStr config.outputVariable then
        {s with vars := s.vars.set (config.outputVariable.getD "") result}
      else s
    (.ok result, s)

/-- `executeConditionalNode`: equals / not_equals / greater / less over
resolved operands. -/
def executeConditionalNode (node : Node) (s : ExecState) : NodeOutcome × ExecState :=
  let config := node.config
  let v1 := resolveValue jsonParse s.vars config.value1
  let v2 := resolveValue jsonParse s.vars config.value2
  let result? : Option Bool :=
    match config.operator with
    | some "equals" => some (jsStrictEq v1 v2)
    | some "not_equals" => some (!jsStrictEq v1 v2)
    | some "greater" => some (jsGreater v1 v2)
    | some "less" => some (jsLess v1 v2)
    | _ => none
  match result? with
  | none => (.thrown "Unknown conditional operator", s)
  | some b =>
    let result := Value.bool b
    let s :=
      if truthyStr config.outputVariable then
        {s with vars := s.vars.set (config.outputVariable.getD "") result}
      else s
    (.ok result, s)

end Executors

/-! ## The graph traversal engine -/

/-- Edge selection of the successor loop: for a conditional source with a
truthy `sourceHandle`, follow the `"true"`-tagged edge when the stored
condition result is truthy and any other tag when it is falsy; every other
edge is always followed. -/
def shouldFollowEdge (node : Node) (conditionResult : Value) (e : Edge) : Bool :=
  if node.type == "conditional" && truthyStr e.sourceHandle then
    if e.sourceHandle == some "true" then truthy conditionResult
    else !truthy conditionResult
  else true

section Engine

variable (jsonParse : String → Option Value) (ext : ExtExec) (flow : Flow)

mutual

/-- `executeNodeRecursive(node, nodeMap, edges, visited, isIntervalExecution)`. -/
def executeNodeRecursive (fuel : Nat) (node : Node) (isIntervalExecution : Bool)
    (s : ExecState) : Step × ExecState :=
  if s.shouldStop then (.done, s)
  else if !isIntervalExecution && s.visited.contains node.id then (.done, s)
  else match fuel with
    | 0 => (.fuelOut, s)
    | f + 1 =>
        let s1 := if isIntervalExecution then s
          else {s with visited := node.id :: s.visited}
        let s2 := {s1 with startLog := s1.startLog ++ [node.id]}
        match executeNode f node s2 with
        | (.thrown msg, s3) => (.thrown msg, s3)
        | (.fuelOut, s3) => (.fuelOut, s3)
        | (.ok result, s3) =>
          let s4 := {s3 with nodeResults := s3.nodeResults.set node.id result}
          if node.type == "conditional" &&
              jsStrictEq ((s4.nodeResults.lookup node.id).getD .undefined) (.bool true) &&
              jsStrictEq node.config.value1 (.str "stopMonitoring") &&
              jsStrictEq node.config.value2 (.str "true") then
            (.done, {s4 with shouldStop := true})
          else
            followEdges f (flow.edges.filter (fun e => e.source == node.id))
              node isIntervalExecution s4

/-- The `for (const edge of nextEdges)` successor loop. -/
def followEdges (fuel : Nat) (nextEdges : List Edge) (node : Node)
    (isIntervalExecution : Bool) (s : ExecState) : Step × ExecState :=
  match nextEdges with
  | [] => (.done, s)
  | e :: rest =>
    match fuel with
    | 0 => (.fuelOut, s)
    | f + 1 =>
      match nodeMapGet flow.nodes e.target with
      | none => followEdges f rest node isIntervalExecution s
      | some nextNode =>
        if shouldFollowEdge node ((s.nodeResults.lookup node.id).getD .undefined) e then
          match executeNodeRecursive f nextNode isIntervalExecution s with
          | (.done, s') => followEdges f rest node isIntervalExecution s'
          | r => r
        else followEdges f rest node isIntervalExecution s

/-- `executeNode`: dispatch on the node kind.  External collaborator kinds
go to the opaque `ext` executor; unknown kinds throw. -/
def executeNode (fuel : Nat) (node : Node) (s : ExecState) :
    NodeOutcome × ExecState :=
  match fuel with
  | 0 => (.fuelOut, s)
  | f + 1 =>
    match node.type with
    | "start" => executeStartNode jsonParse node s
    | "variable" => executeVariableNode jsonParse node s
    | "arithmetic" => executeArithmeticNode jsonParse node s
    | "conditional" => executeConditionalNode jsonParse node s
    | "timer" => executeTimerNode f node s
    | t =>
      if ["blockchain", "llm", "logger", "telegram", "userApproval",
          "marketData", "smartContractRead", "smartContractWrite"].contains t then
        let (r, vars', results') := ext node s.vars s.nodeResults
        (r, {s with vars := vars', nodeResults := results'})
      else (.thrown ("Unknown node type: " ++ t), s)

/-- `executeTimerNode`: delay / interval / timeout.  The `setTimeout`
suspensions have no observable state effect and are not modelled; the
interval loop re-runs the successor subgraph. -/
def executeTimerNode (fuel : Nat) (node : Node) (s : ExecState) :
    NodeOutcome × ExecState :=
  match fuel with
  | 0 => (.fuelOut, s)
  | f + 1 =>
    let config := node.config
    let timerType := strOr config.timerType "delay"
    let duration : NumR := numOrZero (jsToNumber config.duration)
    let unit := strOr config.unit "ms"
    let repeatCount : Value := jsOr config.repeatCount (.num (.fin (.ofInt (-1))))
    let durationMs : NumR :=
      if unit == "s" then duration.mulN (.fin (.ofInt 1000))
      else if unit == "m" then duration.mulN (.fin (.ofInt 60000))
      else duration
    let finish (s' : ExecState) : NodeOutcome × ExecState :=
      let s'' :=
        if truthyStr config.outputVariable then
          {s' with vars := s'.vars.set (config.outputVariable.getD "") (.num durationMs)}
        else s'
      (.ok (.num durationMs), s'')
    match timerType with
    | "delay" => finish s
    | "timeout" => finish s
    | "interval" =>
      if jsGreater (.num durationMs) (.num (.fin (.ofInt 0))) then
        match intervalLoop f node repeatCount
            (if jsGreater repeatCount (.num (.fin (.ofInt 0))) then repeatCount
             else .num (.inf false)) 0 s with
        | (.done, s') => finish s'
        | (.thrown m, s') => (.thrown m, s')
        | (.fuelOut, s') => (.fuelOut, s')
      else finish s
    | other => (.thrown ("Unknown timer type: " ++ other), s)

/-- The `while (count < maxCount && !this.shouldStop)` interval loop.
`count` is incremented before the subgraph runs; the stop flag is
re-checked right after the subgraph (the post-subgraph checkpoint). -/
def intervalLoop (fuel : Nat) (node : Node) (repeatCount maxCount : Value)
    (count : Nat) (s : ExecState) : Step × ExecState :=
  match fuel with
  | 0 => (.fuelOut, s)
  | f + 1 =>
    if jsLess (.num (.fin (.ofInt count))) maxCount && !s.shouldStop then
      match intervalEdges f (flow.edges.filter (fun e => e.source == node.id)) s with
      | (.done, s') =>
        if s'.shouldStop then (.done, s')
        else intervalLoop f node repeatCount maxCount (count + 1) s'
      | r => r
    else (.done, s)

/-- The per-iteration successor loop of the interval timer: every direct
successor is re-visited with `isIntervalExecution = true`. -/
def intervalEdges (fuel : Nat) (nextEdges : List Edge) (s : ExecState) :
    Step × ExecState :=
  match nextEdges with
  | [] => (.done, s)
  | e :: rest =>
    match fuel with
    | 0 => (.fuelOut, s)
    | f + 1 =>
      match nodeMapGet flow.nodes e.target with
      | none => intervalEdges f rest s
      | some nextNode =>
        match executeNodeRecursive f nextNode true s with
        | (.done, s') => intervalEdges f rest s'
        | r => r

end

/-- `executeFlow(flowData)`: the nodes/edges array check holds by typing;
locate the unique start node and walk from it on a fresh state. -/
def executeFlow (fuel : Nat) : Step × ExecState :=
  match flow.nodes.find? (fun n => n.type == "start") with
  | none => (.thrown "No Start node found", {})
  | some startNode => executeNodeRecursive jsonParse ext flow fuel startNode false {}

end Engine

/-! ## Approval wait protocol (`webhookHandler.js` / `userApprovalNode.js`)

Real time is modelled discretely in milliseconds; `Date.now()` becomes an
explicit `now` argument.  The `setInterval` poll of `waitForApproval` fires
at one-second ticks after registration. -/

/-- One entry of the `pendingApprovals` map (`timeout` is stored in
milliseconds, as `registerPendingApproval` does). -/
structure Approval where
  approvalId : String
  chatId : String
  status : String
  timestamp : Nat
  timeout : Nat
  action : Option String := none
deriving DecidableEq, Repr

abbrev ApprovalMap : Type := List (String × Approval)

def amapGet : ApprovalMap → String → Option Approval
  | [], _ => none
  | (k, a) :: rest, key => if k == key then some a else amapGet rest key

def amapSet : ApprovalMap → String → Approval → ApprovalMap
  | [], key, a => [(key, a)]
  | (k, b) :: rest, key, a =>
    if k == key then (k, a) :: rest else (k, b) :: amapSet rest key a

def amapDelete : ApprovalMap → String → ApprovalMap
  | [], _ => []
  | (k, a) :: rest, key =>
    if k == key then rest else (k, a) :: amapDelete rest key

structure WebhookState where
  pendingApprovals : ApprovalMap := []
deriving DecidableEq, Repr

/-- `cleanupExpiredApprovals()`: drop every entry whose elapsed time
strictly exceeds its timeout. -/
def cleanupExpiredApprovals (now : Nat) (st : WebhookState) : WebhookState :=
  { pendingApprovals :=
      st.pendingApprovals.filter
        (fun p => !(decide (now - p.2.timestamp > p.2.timeout))) }

/-- `registerPendingApproval(approvalId, chatId, timeout)` (timeout given
in seconds, stored in milliseconds), followed by the expiry cleanup it
performs. -/
def registerPendingApproval (now : Nat) (st : WebhookState)
    (approvalId chatId : String) (timeout : Nat) : WebhookState :=
  cleanupExpiredApprovals now
    { pendingApprovals :=
        amapSet st.pendingApprovals approvalId
          { approvalId := approvalId, chatId := chatId, status := "pending",
            timestamp := now, timeout := timeout * 1000 } }

/-- `getApprovalResult(approvalId)`: deletes and returns the entry only
when its status is `completed`. -/
def getApprovalResult (st : WebhookState) (approvalId : String) :
    Option Approval × WebhookState :=
  match amapGet st.pendingApprovals approvalId with
  | some approval =>
    if approval.status == "completed" then
      (some approval,
       { pendingApprovals := amapDelete st.pendingApprovals approvalId })
    else (none, st)
  | none => (none, st)

/-- `isApprovalPending(approvalId)` of the webhook handler. -/
def isApprovalPending (now : Nat) (st : WebhookState) (approvalId : String) : Bool :=
  match amapGet st.pendingApprovals approvalId with
  | none => false
  | some approval =>
    approval.status == "pending" && decide (now - approval.timestamp < approval.timeout)

/-- The `setInterval` poll loop of `waitForApproval` for a run during
which no external callback is delivered (so only the poll itself touches
the state).  Tick `k` fires at `startMs + (k+1)*1000`.  The backstop
`setTimeout` would resolve with the same `timeout` action no later than
the timeout itself and performs no map deletion either, so the theorems
below hold for whichever of the two racing watchers fires first. -/
def approvalPollLoop (fuel : Nat) (st : WebhookState) (approvalId : String)
    (startMs k : Nat) : Option (String × Nat × WebhookState) :=
  match fuel with
  | 0 => none
  | f + 1 =>
    let now := startMs + (k + 1) * 1000
    match getApprovalResult st approvalId with
    | (some approval, st') => some (approval.action.getD "", now, st')
    | (none, st') =>
      if !isApprovalPending now st' approvalId then some ("timeout", now, st')
      else approvalPollLoop f st' approvalId startMs (k + 1)

/-! ## Concrete fixtures used by the claims -/

/-- A JSON-parse oracle that always fails; the fixture configs contain no
JSON strings. -/
def parse0 : String → Option Value := fun _ => none

/-- An external-executor oracle; the fixture flows contain no external
collaborator nodes, so it is never consulted. -/
def ext0 : ExtExec := fun _ vars results => (.thrown "external", vars, results)

/-- The C1 scenario exactly as the spec states it: the arithmetic node's
config carries the key `operator`. -/
def flowC1stated : Flow :=
  { nodes := [
      { id := "s", type := "start",
        config := { varDecls := [
          { name := "x", type := some "number", defaultValue := .str "5" }] } },
      { id := "a", type := "arithmetic",
        config := { value1 := .str "x", operator := some "add",
                    value2 := .num (.fin (.ofInt 2)),
                    outputVariable := some "y" } }],
    edges := [{ source := "s", target := "a" }] }

/-- The C1 scenario with the key the code actually reads: `operation`. -/
def flowC1fixed : Flow :=
  { nodes := [
      { id := "s", type := "start",
        config := { varDecls := [
          { name := "x", type := some "number", defaultValue := .str "5" }] } },
      { id := "a", type := "arithmetic",
        config := { value1 := .str "x", operation := some "add",
                    value2 := .num (.fin (.ofInt 2)),
                    outputVariable := some "y" } }],
    edges := [{ source := "s", target := "a" }] }

/-- A conditional node matching the built-in stop condition
(`value1 == 'stopMonitoring' && value2 == 'true'`) whose `not_equals`
operator makes the boolean result true, with a `true`/`false` tagged pair
of outgoing edges. -/
def flowC2stop : Flow :=
  { nodes := [
      { id := "s", type := "start" },
      { id := "c", type := "conditional",
        config := { value1 := .str "stopMonitoring", operator := some "not_equals",
                    value2 := .str "true" } },
      { id := "t", type := "variable",
        config := { variableName := some "tv", operation := some "set",
                    value := .num (.fin (.ofInt 1)) } },
      { id := "f", type := "variable",
        config := { variableName := some "fv", operation := some "set",
                    value := .num (.fin (.ofInt 2)) } }],
    edges := [
      { source := "s", target := "c" },
      { source := "c", target := "t", sourceHandle := some "true" },
      { source := "c", target := "f", sourceHandle := some "false" }] }

/-- An interval timer with `repeatCount = 3` and `duration = 0` feeding an
increment node. -/
def flowC5 : Flow :=
  { nodes := [
      { id := "s", type := "start" },
      { id := "t", type := "timer",
        config := { timerType := some "interval",
                    duration := .num (.fin (.ofInt 0)),
                    repeatCount := .num (.fin (.ofInt 3)),
                    outputVariable := some "d" } },
      { id := "c", type := "variable",
        config := { variableName := some "c", operation := some "increment" } }],
    edges := [
      { source := "s", target := "t" },
      { source := "t", target := "c" }] }

/-- A variable node incrementing the previously-unset variable `n`. -/
def nodeC7 : Node :=
  { id := "v", type := "variable",
    config := { variableName := some "n", operation := some "increment" } }

/-- Variable store for the C9 counterexample: `x` holds the literal text
of a placeholder for `y`. -/
def varsC9 : ValueAssoc :=
  .cons "x" (.str "\x7by\x7d") (.cons "y" (.num (.fin (.ofInt 5))) .nil)

/-- A timer node whose only successor is a stop-triggering conditional;
used to exercise the interval loop's post-subgraph stop checkpoint. -/
def flowC3 : Flow :=
  { nodes := [
      { id := "t", type := "timer",
        config := { timerType := some "interval",
                    duration := .num (.fin (.ofInt 5)),
                    repeatCount := .num (.fin (.ofInt (-1))) } },
      { id := "c", type := "conditional",
        config := { value1 := .str "stopMonitoring", operator := some "not_equals",
                    value2 := .str "true" } }],
    edges := [{ source := "t", target := "c" }] }

/-- The traversal relation between a pre-state and a post-state: the
visited set only grows, and the dispatch log grows by a duplicate-free
block of node ids that were unvisited before and are visited after. -/
def DispatchInv (s s' : ExecState) : Prop :=
  (∀ x, x ∈ s.visited → x ∈ s'.visited) ∧
  ∃ Δ, s'.startLog = s.startLog ++ Δ ∧ Δ.Nodup ∧
    ∀ x ∈ Δ, x ∉ s.visited ∧ x ∈ s'.visited

/-- Control-state (stop flag, visited set, dispatch log) preservation, the
frame of every non-timer node executor. -/
def SameCtl (s s' : ExecState) : Prop :=
  s'.shouldStop = s.shouldStop ∧ s'.visited = s.visited ∧ s'.startLog = s.startLog

/-! ## Helper lemmas -/

theorem ValueAssoc.lookup_set_self :
    ∀ (m : ValueAssoc) (k : String) (v : Value), (m.set k v).lookup k = some v
  | .nil, k, v => by simp [ValueAssoc.set, ValueAssoc.lookup]
  | .cons k' v' rest, k, v => by
    by_cases h : k' == k
    · simp [ValueAssoc.set, h, ValueAssoc.lookup]
    · simp only [ValueAssoc.set, h, Bool.false_eq_true, if_false, ValueAssoc.lookup]
      exact ValueAssoc.lookup_set_self rest k v

theorem nodeMapGet_mem_aux (nodes : List Node) (id : String) :
    ∀ (acc : Option Node) (n : Node),
      nodes.foldl (fun acc n => if n.id == id then some n else acc) acc = some n →
      n ∈ nodes ∨ acc = some n := by
  induction nodes with
  | nil => intro acc n h; exact Or.inr h
  | cons m rest ih =>
    intro acc n h
    simp only [List.foldl_cons] at h
    rcases ih _ n h with hmem | hacc
    · exact Or.inl (List.mem_cons_of_mem _ hmem)
    · by_cases hm : m.id == id
      · simp [hm] at hacc
        exact Or.inl (hacc ▸ List.mem_cons_self _ _)
      · simp [hm] at hacc
        exact Or.inr hacc

theorem nodeMapGet_mem (nodes : List Node) (id : String) (n : Node)
    (h : nodeMapGet nodes id = some n) : n ∈ nodes := by
  rcases nodeMapGet_mem_aux nodes id none n h with hmem | habs
  · exact hmem
  · cases habs

theorem dispatchInv_rfl (s : ExecState) : DispatchInv s s :=
  ⟨fun _ h => h, [], by simp⟩

theorem dispatchInv_trans {s1 s2 s3 : ExecState}
    (h12 : DispatchInv s1 s2) (h23 : DispatchInv s2 s3) : DispatchInv s1 s3 := by
  obtain ⟨mono12, Δ1, hlog1, hnd1, hmem1⟩ := h12
  obtain ⟨mono23, Δ2, hlog2, hnd2, hmem2⟩ := h23
  refine ⟨fun x hx => mono23 x (mono12 x hx), Δ1 ++ Δ2, ?_, ?_, ?_⟩
  · rw [hlog2, hlog1, List.append_assoc]
  · exact List.Nodup.append hnd1 hnd2
      (fun x hx1 hx2 => (hmem2 x hx2).1 (hmem1 x hx1).2)
  · intro x hx
    rcases List.mem_append.mp hx with hx1 | hx2
    · exact ⟨(hmem1 x hx1).1, mono23 x (hmem1 x hx1).2⟩
    · exact ⟨fun hmem => (hmem2 x hx2).1 (mono12 x hmem), (hmem2 x hx2).2⟩

/-! Frame lemmas: every non-timer executor preserves the control state. -/

theorem executeStartNode_ctl (jp : String → Option Value) (node : Node)
    (s : ExecState) : SameCtl s (executeStartNode jp node s).2 := by
  simp [executeStartNode, SameCtl]

theorem executeVariableNode_ctl (jp : String → Option Value) (node : Node)
    (s : ExecState) : SameCtl s (executeVariableNode jp node s).2 := by
  unfold executeVariableNode
  dsimp only
  split
  · simp [SameCtl]
  · split <;> simp [SameCtl]

theorem executeArithmeticNode_ctl (jp : String → Option Value) (node : Node)
    (s : ExecState) : SameCtl s (executeArithmeticNode jp node s).2 := by
  unfold executeArithmeticNode
  dsimp only
  split
  · simp [SameCtl]
  · split <;> simp [SameCtl]

theorem executeConditionalNode_ctl (jp : String → Option Value) (node : Node)
    (s : ExecState) : SameCtl s (executeConditionalNode jp node s).2 := by
  unfold executeConditionalNode
  dsimp only
  split
  · simp [SameCtl]
  · split <;> simp [SameCtl]

theorem executeNode_ctl (jp : String → Option Value) (ext : ExtExec) (flow : Flow)
    (fuel : Nat) (node : Node) (s : ExecState) (h : node.type ≠ "timer") :
    SameCtl s (executeNode jp ext flow fuel node s).2 := by
  cases fuel with
  | zero => simp [executeNode, SameCtl]
  | succ f =>
    unfold executeNode
    split
    · exact executeStartNode_ctl jp node s
    · exact executeVariableNode_ctl jp node s
    · exact executeArithmeticNode_ctl jp node s
    · exact executeConditionalNode_ctl jp node s
    · exact absurd (by assumption) h
    · split
      · simp [SameCtl]
      · simp [SameCtl]

theorem visit_zero_state (jp : String → Option Value) (ext : ExtExec) (flow : Flow)
    (node : Node) (isInt : Bool) (s : ExecState) :
    (executeNodeRecursive jp ext flow 0 node isInt s).2 = s := by
  by_cases hs : s.shouldStop <;> simp [executeNodeRecursive, hs] <;> split <;> rfl

theorem dispatchInv_push (s s3 : ExecState) (id : String) (v : ValueAssoc)
    (hvis : id ∉ s.visited)
    (hv : s3.visited = id :: s.visited)
    (hl : s3.startLog = s.startLog ++ [id]) :
    DispatchInv s { s3 with nodeResults := v } := by
  refine ⟨?_, [id], by simpa using hl, List.nodup_singleton id, ?_⟩
  · intro x hx
    simp [hv]
    exact Or.inr hx
  · intro x hx
    simp at hx
    subst hx
    exact ⟨hvis, by simp [hv]⟩

/-- The core traversal invariant: a visit or successor loop in normal
(non-interval) mode only grows the visited set and extends the dispatch
log by a duplicate-free block of previously-unvisited ids, provided the
flow contains no timer nodes. -/
theorem visit_followEdges_inv (jp : String → Option Value) (ext : ExtExec)
    (flow : Flow) (NT : ∀ n ∈ flow.nodes, n.type ≠ "timer") :
    ∀ fuel : Nat,
      (∀ (node : Node) (s : ExecState), node.type ≠ "timer" →
        DispatchInv s (executeNodeRecursive jp ext flow fuel node false s).2) ∧
      (∀ (edges : List Edge) (node : Node) (s : ExecState),
        DispatchInv s (followEdges jp ext flow fuel edges node false s).2) := by
  intro fuel
  induction fuel with
  | zero =>
    constructor
    · intro node s _
      rw [visit_zero_state]
      exact dispatchInv_rfl s
    · intro edges node s
      cases edges with
      | nil => simpa [followEdges] using dispatchInv_rfl s
      | cons e rest => simpa [followEdges] using dispatchInv_rfl s
  | succ f ih =>
    constructor
    · intro node s hnt
      by_cases hstop : s.shouldStop = true
      · simpa [executeNodeRecursive, hstop] using dispatchInv_rfl s
      · replace hstop : s.shouldStop = false := by
          cases hs : s.shouldStop
          · rfl
          · exact absurd hs hstop
        by_cases hvst : node.id ∈ s.visited
        · simpa [executeNodeRecursive, hstop, hvst] using dispatchInv_rfl s
        · rcases hE : executeNode jp ext flow f node
              { vars := s.vars, nodeResults := s.nodeResults, shouldStop := false,
                visited := node.id :: s.visited,
                startLog := s.startLog ++ [node.id] } with ⟨r, s3⟩
          have hctl := executeNode_ctl jp ext flow f node
            { vars := s.vars, nodeResults := s.nodeResults, shouldStop := false,
              visited := node.id :: s.visited,
              startLog := s.startLog ++ [node.id] } hnt
          rw [hE] at hctl
          obtain ⟨hsstop, hsvis, hslog⟩ := hctl
          cases r with
          | thrown msg =>
            have heq : (executeNodeRecursive jp ext flow (f + 1) node false s).2 = s3 := by
              simp [executeNodeRecursive, hstop, hvst, hE]
            rw [heq]
            have h0 := dispatchInv_push s s3 node.id s3.nodeResults hvst hsvis hslog
            simpa using h0
          | fuelOut =>
            have heq : (executeNodeRecursive jp ext flow (f + 1) node false s).2 = s3 := by
              simp [executeNodeRecursive, hstop, hvst, hE]
            rw [heq]
            have h0 := dispatchInv_push s s3 node.id s3.nodeResults hvst hsvis hslog
            simpa using h0
          | ok v =>
            by_cases hsc : (node.type == "conditional" &&
                jsStrictEq (((s3.nodeResults.set node.id v).lookup node.id).getD .undefined)
                  (.bool true) &&
                jsStrictEq node.config.value1 (.str "stopMonitoring") &&
                jsStrictEq node.config.value2 (.str "true")) = true
            · have heq : (executeNodeRecursive jp ext flow (f + 1) node false s).2 =
                  { s3 with nodeResults := s3.nodeResults.set node.id v,
                            shouldStop := true } := by
                simp [executeNodeRecursive, hstop, hvst, hE, hsc]
              rw [heq]
              exact dispatchInv_push s { s3 with shouldStop := true } node.id
                (s3.nodeResults.set node.id v) hvst hsvis hslog
            · have hsc' : (node.type == "conditional" &&
                  jsStrictEq (((s3.nodeResults.set node.id v).lookup node.id).getD .undefined)
                    (.bool true) &&
                  jsStrictEq node.config.value1 (.str "stopMonitoring") &&
                  jsStrictEq node.config.value2 (.str "true")) = false := by
                cases hx : (node.type == "conditional" &&
                    jsStrictEq (((s3.nodeResults.set node.id v).lookup node.id).getD .undefined)
                      (.bool true) &&
                    jsStrictEq node.config.value1 (.str "stopMonitoring") &&
                    jsStrictEq node.config.value2 (.str "true"))
                · rfl
                · exact absurd hx hsc
              have hstep : executeNodeRecursive jp ext flow (f + 1) node false s =
                  followEdges jp ext flow f
                    (flow.edges.filter (fun e => e.source == node.id)) node false
                    { s3 with nodeResults := s3.nodeResults.set node.id v } := by
                simp [executeNodeRecursive, hstop, hvst, hE, hsc']
              rw [hstep]
              exact dispatchInv_trans
                (dispatchInv_push s s3 node.id (s3.nodeResults.set node.id v) hvst hsvis hslog)
                (ih.2 _ node { s3 with nodeResults := s3.nodeResults.set node.id v })
    · intro edges node s
      cases edges with
      | nil => simpa [followEdges] using dispatchInv_rfl s
      | cons e rest =>
        rcases hm : nodeMapGet flow.nodes e.target with _ | nextNode
        · have heq : followEdges jp ext flow (f + 1) (e :: rest) node false s =
              followEdges jp ext flow f rest node false s := by
            simp [followEdges, hm]
          rw [heq]
          exact ih.2 rest node s
        · have hnt2 : nextNode.type ≠ "timer" := NT _ (nodeMapGet_mem _ _ _ hm)
          by_cases hf : shouldFollowEdge node
              ((s.nodeResults.lookup node.id).getD .undefined) e = true
          · rcases hv : executeNodeRecursive jp ext flow f nextNode false s with ⟨st, s'⟩
            have hinv1 : DispatchInv s s' := by
              have h0 := (ih.1) nextNode s hnt2
              rw [hv] at h0
              exact h0
            cases st with
            | done =>
              have heq : followEdges jp ext flow (f + 1) (e :: rest) node false s =
                  followEdges jp ext flow f rest node false s' := by
                simp [followEdges, hm, hf, hv]
              rw [heq]
              exact dispatchInv_trans hinv1 (ih.2 rest node s')
            | thrown msg =>
              have heq : (followEdges jp ext flow (f + 1) (e :: rest) node false s).2 = s' := by
                simp [followEdges, hm, hf, hv]
              rw [heq]
              exact hinv1
            | fuelOut =>
              have heq : (followEdges jp ext flow (f + 1) (e :: rest) node false s).2 = s' := by
                simp [followEdges, hm, hf, hv]
              rw [heq]
              exact hinv1
          · have hf' : shouldFollowEdge node
                ((s.nodeResults.lookup node.id).getD .undefined) e = false := by
              cases hx : shouldFollowEdge node ((s.nodeResults.lookup node.id).getD .undefined) e
              · rfl
              · exact absurd hx hf
            have heq : followEdges jp ext flow (f + 1) (e :: rest) node false s =
                followEdges jp ext flow f rest node false s := by
              simp [followEdges, hm, hf']
            rw [heq]
            exact ih.2 rest node s

/-! Single-step unfolding lemmas for the traversal, used to evaluate
concrete runs one dispatch at a time. -/

theorem executeFlow_eq_visit (jp : String → Option Value) (ext : ExtExec)
    (flow : Flow) (fuel : Nat) (startNode : Node)
    (h : flow.nodes.find? (fun n => n.type == "start") = some startNode) :
    executeFlow jp ext flow fuel =
      executeNodeRecursive jp ext flow fuel startNode false {} := by
  simp [executeFlow, h]

theorem visit_step_ok (jp : String → Option Value) (ext : ExtExec) (flow : Flow)
    (f : Nat) (node : Node) (s s3 : ExecState) (v : Value)
    (hstop : s.shouldStop = false)
    (hvis : s.visited.contains node.id = false)
    (hnc : (node.type == "conditional") = false)
    (hexec : executeNode jp ext flow f node
        {s with visited := node.id :: s.visited,
                startLog := s.startLog ++ [node.id]} = (.ok v, s3)) :
    executeNodeRecursive jp ext flow (f + 1) node false s =
      followEdges jp ext flow f (flow.edges.filter (fun e => e.source == node.id))
        node false {s3 with nodeResults := s3.nodeResults.set node.id v} := by
  have hmem : node.id ∉ s.visited := by simpa using hvis
  simp only [hstop] at hexec
  simp [executeNodeRecursive, hstop, hmem, hexec, hnc]

theorem followEdges_step_follow (jp : String → Option Value) (ext : ExtExec)
    (flow : Flow) (f : Nat) (e : Edge) (rest : List Edge)
    (node nextNode : Node) (isInt : Bool) (s s' : ExecState)
    (hmap : nodeMapGet flow.nodes e.target = some nextNode)
    (hfol : shouldFollowEdge node ((s.nodeResults.lookup node.id).getD .undefined) e = true)
    (hvisit : executeNodeRecursive jp ext flow f nextNode isInt s = (.done, s')) :
    followEdges jp ext flow (f + 1) (e :: rest) node isInt s =
      followEdges jp ext flow f rest node isInt s' := by
  simp [followEdges, hmap, hfol, hvisit]

theorem followEdges_nil (jp : String → Option Value) (ext : ExtExec)
    (flow : Flow) (fuel : Nat) (node : Node) (isInt : Bool) (s : ExecState) :
    followEdges jp ext flow fuel [] node isInt s = (.done, s) := by
  cases fuel <;> simp [followEdges]

/-- State of the C5 run after the start node has been dispatched. -/
def stateC5mid : ExecState :=
  { vars := .nil, nodeResults := .cons "s" .null .nil, shouldStop := false,
    visited := ["s"], startLog := ["s"] }

/-- Final state of the C5 run: the interval loop never ran (`duration = 0`),
`c` was dispatched once by the normal traversal, and `d` holds 0. -/
def stateC5final : ExecState :=
  { vars := .cons "d" (.num (.fin (.mk 0 1))) (.cons "c" (.num (.fin (.mk 0 1))) .nil),
    nodeResults := .cons "s" .null (.cons "t" (.num (.fin (.mk 0 1)))
      (.cons "c" (.num (.fin (.mk 0 1))) .nil)),
    shouldStop := false, visited := ["c", "t", "s"], startLog := ["s", "t", "c"] }

theorem flowC5_run : executeFlow parse0 ext0 flowC5 20 = (.done, stateC5final) := by
  have h0 := executeFlow_eq_visit parse0 ext0 flowC5 20
    { id := "s", type := "start" } (by decide)
  have h1 : executeNodeRecursive parse0 ext0 flowC5 20
      { id := "s", type := "start" } false {} =
      followEdges parse0 ext0 flowC5 19 [{ source := "s", target := "t" }]
        { id := "s", type := "start" } false stateC5mid :=
    visit_step_ok parse0 ext0 flowC5 19 { id := "s", type := "start" } {}
      { vars := .nil, nodeResults := .nil, shouldStop := false,
        visited := ["s"], startLog := ["s"] } .null
      rfl (by decide) (by decide) (by decide)
  have h2 : followEdges parse0 ext0 flowC5 19 [{ source := "s", target := "t" }]
      { id := "s", type := "start" } false stateC5mid =
      followEdges parse0 ext0 flowC5 18 [] { id := "s", type := "start" } false
        stateC5final :=
    followEdges_step_follow parse0 ext0 flowC5 18 { source := "s", target := "t" }
      [] { id := "s", type := "start" }
      { id := "t", type := "timer",
        config := { timerType := some "interval",
                    duration := .num (.fin (.ofInt 0)),
                    repeatCount := .num (.fin (.ofInt 3)),
                    outputVariable := some "d" } }
      false stateC5mid stateC5final (by decide) (by decide) (by decide)
  rw [h0, h1, h2, followEdges_nil]

/-! ## Claim C1 -/

/-- Claim C1, as stated, is false: the spec's scenario writes the
arithmetic config key as `operator`, but `executeArithmeticNode` switches
on `config.operation`, so the run throws `Unknown arithmetic operation`
and `y` is never written (while `x` is already coerced to the number 5 by
the start node). -/
theorem C1_counterexample :
    (executeFlow parse0 ext0 flowC1stated 10).1 =
      .thrown "Unknown arithmetic operation" ∧
    (executeFlow parse0 ext0 flowC1stated 10).2.vars.lookup "y" = none ∧
    (executeFlow parse0 ext0 flowC1stated 10).2.vars.lookup "x" =
      some (.num (.fin (.ofInt 5))) := by decide

/-- Claim C1 (amended: the arithmetic node's operation key is named
`operation`, not `operator`): running the two-node flow completes
normally, the Variable Store contains `y = 7`, and `x` was coerced to the
number 5 at start-node initialisation. -/
theorem C1_amended_run :
    (executeFlow parse0 ext0 flowC1fixed 10).1 = .done ∧
    (executeFlow parse0 ext0 flowC1fixed 10).2.vars.lookup "y" =
      some (.num (.fin (.ofInt 7))) ∧
    (executeFlow parse0 ext0 flowC1fixed 10).2.vars.lookup "x" =
      some (.num (.fin (.ofInt 5))) := by decide

/-! ## Claim C2 -/

/-- Claim C2, as stated, is false: a conditional node that triggers the
built-in stop condition (`value1 == 'stopMonitoring' && value2 == 'true'`
with boolean result `true`) returns before the successor loop, so its
`true`-tagged edge is not followed even though the result is true. -/
theorem C2_counterexample :
    (executeFlow parse0 ext0 flowC2stop 20).1 = .done ∧
    (executeFlow parse0 ext0 flowC2stop 20).2.nodeResults.lookup "c" =
      some (.bool true) ∧
    (executeFlow parse0 ext0 flowC2stop 20).2.startLog = ["s", "c"] ∧
    ¬ ("t" ∈ (executeFlow parse0 ext0 flowC2stop 20).2.startLog) := by decide

/-- Claim C2 (amended): for a conditional node with a `true`/`false`
tagged pair of outgoing edges, the `true`-tagged edge is followed exactly
when the boolean result is true and the `false`-tagged edge exactly when
it is false, and an untagged edge is always followed — except when the
node triggers the built-in stop condition (`value1 == 'stopMonitoring'`,
`value2 == 'true'`, result `true`), in which case the visit returns with
the stop flag set before following any edge. -/
theorem C2_amended_branching :
    (∀ (node : Node) (e : Edge) (b : Bool), node.type = "conditional" →
      ((e.sourceHandle = some "true" → shouldFollowEdge node (.bool b) e = b) ∧
       (e.sourceHandle = some "false" → shouldFollowEdge node (.bool b) e = !b) ∧
       (e.sourceHandle = none → shouldFollowEdge node (.bool b) e = true))) ∧
    (∀ (jp : String → Option Value) (ext : ExtExec) (flow : Flow) (fuel : Nat)
       (node : Node) (s s3 : ExecState),
      node.type = "conditional" →
      node.config.value1 = .str "stopMonitoring" →
      node.config.value2 = .str "true" →
      s.shouldStop = false →
      s.visited.contains node.id = false →
      executeConditionalNode jp node
          {s with visited := node.id :: s.visited,
                  startLog := s.startLog ++ [node.id]} = (.ok (.bool true), s3) →
      executeNodeRecursive jp ext flow (fuel + 2) node false s =
        (.done, {s3 with nodeResults := s3.nodeResults.set node.id (.bool true),
                         shouldStop := true})) := by
  constructor
  · intro node e b htype
    refine ⟨?_, ?_, ?_⟩ <;> intro hh <;>
      simp [shouldFollowEdge, htype, hh, truthyStr, truthy]
  · intro jp ext flow fuel node s s3 htype hv1 hv2 hstop hvis hcond
    have hmem : node.id ∉ s.visited := by simpa using hvis
    simp only [hstop] at hcond
    simp [executeNodeRecursive, hstop, hmem, executeNode, htype, hcond, hv1, hv2,
          ValueAssoc.lookup_set_self, jsStrictEq]

/-- Witness for C2 at concrete inputs: the tagged-edge selection on a
`true`-tagged edge, and the stop-triggering conditional of `flowC2stop`
returning without following its edges. -/
theorem C2_amended_branching_witness :
    shouldFollowEdge { id := "c", type := "conditional" } (.bool true)
        { source := "c", target := "t", sourceHandle := some "true" } = true ∧
    executeNodeRecursive parse0 ext0 flowC2stop 2
        { id := "c", type := "conditional",
          config := { value1 := .str "stopMonitoring", operator := some "not_equals",
                      value2 := .str "true" } } false {} =
      (.done, { nodeResults := .cons "c" (.bool true) .nil, shouldStop := true,
                visited := ["c"], startLog := ["c"] }) :=
  ⟨(C2_amended_branching.1 { id := "c", type := "conditional" }
      { source := "c", target := "t", sourceHandle := some "true" } true rfl).1 rfl,
   C2_amended_branching.2 parse0 ext0 flowC2stop 0
     { id := "c", type := "conditional",
       config := { value1 := .str "stopMonitoring", operator := some "not_equals",
                   value2 := .str "true" } } {}
     { vars := .nil, nodeResults := .nil, shouldStop := false,
       visited := ["c"], startLog := ["c"] }
     rfl rfl rfl rfl (by decide) (by decide)⟩

/-! ## Claim C3 -/

/-- Claim C3: once the stop flag is set, every call to the recursive visit
returns immediately with the state unchanged (so no further node is
dispatched and nothing is logged), and the interval loop aborts at its
post-subgraph checkpoint when the subgraph completes with the flag set. -/
theorem C3_stop_flag_halts :
    (∀ (jp : String → Option Value) (ext : ExtExec) (flow : Flow) (fuel : Nat)
       (node : Node) (isInt : Bool) (s : ExecState),
       s.shouldStop = true →
       executeNodeRecursive jp ext flow fuel node isInt s = (.done, s)) ∧
    (∀ (jp : String → Option Value) (ext : ExtExec) (flow : Flow) (fuel : Nat)
       (node : Node) (rc mc : Value) (count : Nat) (s s' : ExecState),
       (jsLess (.num (.fin (.ofInt count))) mc && !s.shouldStop) = true →
       intervalEdges jp ext flow fuel
           (flow.edges.filter (fun e => e.source == node.id)) s = (.done, s') →
       s'.shouldStop = true →
       intervalLoop jp ext flow (fuel + 1) node rc mc count s = (.done, s')) := by
  constructor
  · intro jp ext flow fuel node isInt s h
    cases fuel <;> simp [executeNodeRecursive, h]
  · intro jp ext flow fuel node rc mc count s s' hcond hedges hstop
    simp [intervalLoop, hcond, hedges, hstop]

/-- Witness for C3 at concrete inputs: a visit with the flag already set
is the identity, and a concrete interval iteration whose subgraph sets the
flag (the stop conditional of `flowC3`) ends the loop at the checkpoint. -/
theorem C3_stop_flag_halts_witness :
    executeNodeRecursive parse0 ext0 flowC3 3 nodeC7 false
        { shouldStop := true } = (.done, { shouldStop := true }) ∧
    intervalLoop parse0 ext0 flowC3 6 { id := "t", type := "timer" }
        (.num (.fin (.ofInt (-1)))) (.num (.inf false)) 0 {} =
      (.done, { nodeResults := .cons "c" (.bool true) .nil, shouldStop := true,
                startLog := ["c"] }) :=
  ⟨C3_stop_flag_halts.1 parse0 ext0 flowC3 3 nodeC7 false { shouldStop := true } rfl,
   C3_stop_flag_halts.2 parse0 ext0 flowC3 5 { id := "t", type := "timer" }
     (.num (.fin (.ofInt (-1)))) (.num (.inf false)) 0 {}
     { nodeResults := .cons "c" (.bool true) .nil, shouldStop := true,
       startLog := ["c"] }
     (by decide) (by decide) (by decide)⟩

/-! ## Claim C4 -/

/-- Claim C4: in a flow with no timer nodes a single run dispatches each
node at most once (the dispatch log is duplicate-free), and a visit of a
node whose id is already in the visited set returns immediately with the
state unchanged when interval mode is off.  The underlying invariant
(`visit_followEdges_inv`) also shows every dispatched id enters the
visited set at dispatch time. -/
theorem C4_no_timer_at_most_once :
    (∀ (jp : String → Option Value) (ext : ExtExec) (flow : Flow) (fuel : Nat),
      (∀ n ∈ flow.nodes, n.type ≠ "timer") →
      ((executeFlow jp ext flow fuel).2.startLog).Nodup) ∧
    (∀ (jp : String → Option Value) (ext : ExtExec) (flow : Flow) (fuel : Nat)
       (node : Node) (s : ExecState),
      s.visited.contains node.id = true →
      executeNodeRecursive jp ext flow fuel node false s = (.done, s)) := by
  constructor
  · intro jp ext flow fuel NT
    cases hfind : flow.nodes.find? (fun n => n.type == "start") with
    | none =>
      simp [executeFlow, hfind]
    | some startNode =>
      have hstart : startNode.type = "start" := by
        have h0 := List.find?_some hfind
        simpa using h0
      have hnt : startNode.type ≠ "timer" := by simp [hstart]
      have hinv := (visit_followEdges_inv jp ext flow NT fuel).1 startNode {} hnt
      obtain ⟨-, Δ, hlog, hnd, -⟩ := hinv
      rw [executeFlow_eq_visit jp ext flow fuel startNode hfind, hlog]
      simpa using hnd
  · intro jp ext flow fuel node s h
    have hmem : node.id ∈ s.visited := by simpa using h
    by_cases hs : s.shouldStop = true
    · cases fuel <;> simp [executeNodeRecursive, hs]
    · replace hs : s.shouldStop = false := by
        cases hx : s.shouldStop
        · rfl
        · exact absurd hx hs
      cases fuel <;> simp [executeNodeRecursive, hs, hmem]

/-- Witness for C4: the timer-free C1 flow has a duplicate-free dispatch
log, and a re-entrant visit of an already-visited node is the identity. -/
theorem C4_no_timer_at_most_once_witness :
    ((executeFlow parse0 ext0 flowC1fixed 10).2.startLog).Nodup ∧
    executeNodeRecursive parse0 ext0 flowC1fixed 5 { id := "s", type := "start" }
        false { visited := ["s"] } = (.done, { visited := ["s"] }) :=
  ⟨C4_no_timer_at_most_once.1 parse0 ext0 flowC1fixed 10 (by decide),
   C4_no_timer_at_most_once.2 parse0 ext0 flowC1fixed 5 { id := "s", type := "start" }
     { visited := ["s"] } (by decide)⟩

/-! ## Claim C5 -/

/-- Claim C5, as stated, is false: with `duration = 0` the interval loop
is guarded by `durationMs > 0` and never runs, so the successor subgraph
is executed once (by the normal traversal step after the timer), not 3
times. -/
theorem C5_counterexample :
    (executeFlow parse0 ext0 flowC5 20).2.startLog.count "c" = 1 ∧
    ¬ ((executeFlow parse0 ext0 flowC5 20).2.startLog.count "c" = 3) := by
  rw [flowC5_run]
  decide

/-- Claim C5 (amended): with `repeatCount = 3` and `duration = 0` the
interval loop is skipped entirely, the successor subgraph executes exactly
once via the normal traversal step after the timer node, and the timer's
output variable equals 0 afterwards. -/
theorem C5_amended_run :
    (executeFlow parse0 ext0 flowC5 20).1 = .done ∧
    (executeFlow parse0 ext0 flowC5 20).2.startLog.count "c" = 1 ∧
    (executeFlow parse0 ext0 flowC5 20).2.vars.lookup "d" =
      some (.num (.fin (.ofInt 0))) := by
  rw [flowC5_run]
  decide

/-! ## Claim C6 -/

/-- Claim C6: `resolveValue` never fails on a dotted path whose first
segment names a known variable; whenever the nested descent (with its
transparent JSON parsing) fails at some hop, the original input string is
returned unchanged. -/
theorem C6_dotted_fallback (jp : String → Option Value) (vars : ValueAssoc)
    (s base : String) (rest : List String) (cur : Value)
    (h1 : vars.lookup s = none)
    (h2 : containsChar s '\x2e' = true)
    (h3 : splitDots s = base :: rest)
    (h4 : base.data.isEmpty = false)
    (h5 : vars.lookup base = some cur)
    (h6 : descendPath jp (parseBase jp cur) rest = none) :
    resolveValue jp vars (.str s) = .str s := by
  simp [resolveValue, h1, h2, h3, h4, h5, h6]

/-- Witness for C6: the path `order.items.5` fails at index 5 of an empty
items array and resolves to the original literal. -/
theorem C6_dotted_fallback_witness :
    resolveValue parse0
        (.cons "order" (.obj (.cons "items" (.arr .nil) .nil)) .nil)
        (.str "order.items.5") = .str "order.items.5" :=
  C6_dotted_fallback parse0
    (.cons "order" (.obj (.cons "items" (.arr .nil) .nil)) .nil)
    "order.items.5" "order" ["items", "5"]
    (.obj (.cons "items" (.arr .nil) .nil))
    (by decide) (by decide) (by decide) (by decide) (by decide) (by decide)

/-! ## Claim C7 -/

/-- Claim C7, as stated, is false: incrementing a previously-unset
variable initialises it to 0 and returns 0 — the increment branch only
adds 1 when the variable already exists. -/
theorem C7_counterexample :
    (executeVariableNode parse0 nodeC7 {}).1 = .ok (.num (.fin (.ofInt 0))) ∧
    (executeVariableNode parse0 nodeC7 {}).2.vars.lookup "n" =
      some (.num (.fin (.ofInt 0))) ∧
    ¬ ((executeVariableNode parse0 nodeC7 {}).1 = .ok (.num (.fin (.ofInt 1)))) := by
  decide

/-- Claim C7 (amended): executing a variable node with operation
`increment` on a variable not yet in the store initialises it to 0 without
incrementing, so the variable equals 0 and the node returns 0. -/
theorem C7_amended_increment_unset (jp : String → Option Value) (node : Node)
    (s : ExecState) (nm : String)
    (hnm : node.config.variableName = some nm)
    (hne : nm.data.isEmpty = false)
    (hop : node.config.operation = some "increment")
    (habs : s.vars.hasKey nm = false) :
    executeVariableNode jp node s =
      (.ok (.num (.fin (.ofInt 0))),
       {s with vars := s.vars.set nm (.num (.fin (.ofInt 0)))}) := by
  simp [executeVariableNode, truthyStr, hnm, hne, strOr, hop, habs,
        ValueAssoc.lookup_set_self]

/-- Witness for C7 at the concrete increment node on an empty store. -/
theorem C7_amended_increment_unset_witness :
    executeVariableNode parse0 nodeC7 {} =
      (.ok (.num (.fin (.ofInt 0))),
       { vars := ValueAssoc.nil.set "n" (.num (.fin (.ofInt 0))) }) :=
  C7_amended_increment_unset parse0 nodeC7 {} "n" rfl (by decide) rfl (by decide)

/-! ## Claim C8 -/

/-- Claim C8, as stated, is false in its removal clause: with a 1-second
timeout and no callback, the poll loop resolves `timeout` at the first
tick (1000 ms, within timeout + one poll interval), but the Pending
Approval entry is still in the pending map afterwards — only
`getApprovalResult` on a completed entry, or the expiry cleanup run by a
later registration, ever deletes it. -/
theorem C8_counterexample :
    approvalPollLoop 5 (registerPendingApproval 0 {} "a1" "chat" 1) "a1" 0 0 =
      some ("timeout", 1000, registerPendingApproval 0 {} "a1" "chat" 1) ∧
    ¬ (amapGet (registerPendingApproval 0 {} "a1" "chat" 1).pendingApprovals "a1" =
        none) := by decide

theorem pollLoop_pending_timeout (startMs T : Nat) (chatId : String) :
    ∀ (fuel k : Nat), k < T → T - k ≤ fuel →
      approvalPollLoop fuel
        { pendingApprovals := [("a1",
            { approvalId := "a1", chatId := chatId, status := "pending",
              timestamp := startMs, timeout := T * 1000 })] } "a1" startMs k =
      some ("timeout", startMs + T * 1000,
        { pendingApprovals := [("a1",
            { approvalId := "a1", chatId := chatId, status := "pending",
              timestamp := startMs, timeout := T * 1000 })] }) := by
  intro fuel
  induction fuel with
  | zero => intro k hk hf; omega
  | succ f ih =>
    intro k hk hf
    have hnow : startMs + (k + 1) * 1000 - startMs = (k + 1) * 1000 := by omega
    by_cases hlt : k + 1 < T
    · have hpend : isApprovalPending (startMs + (k + 1) * 1000)
          { pendingApprovals := [("a1",
              { approvalId := "a1", chatId := chatId, status := "pending",
                timestamp := startMs, timeout := T * 1000 })] } "a1" = true := by
        simp [isApprovalPending, amapGet, hnow]
        omega
      simp [approvalPollLoop, getApprovalResult, amapGet, hpend]
      exact ih (k + 1) hlt (by omega)
    · have hk1 : k + 1 = T := by omega
      have hpend : isApprovalPending (startMs + (k + 1) * 1000)
          { pendingApprovals := [("a1",
              { approvalId := "a1", chatId := chatId, status := "pending",
                timestamp := startMs, timeout := T * 1000 })] } "a1" = false := by
        simp [isApprovalPending, amapGet, hnow]
        omega
      rw [hk1] at hpend
      simp [approvalPollLoop, getApprovalResult, amapGet, hk1, hpend]

/-- Claim C8 (amended): an approval wait with a `T`-second timeout and no
delivered callback resolves `{action := "timeout"}` at `startMs + T*1000`,
within the timeout plus one 1-second poll interval; the Pending Approval
entry is not removed at resolution, and it is only deleted when a later
`registerPendingApproval` runs the expiry cleanup after the timeout has
strictly elapsed. -/
theorem C8_amended_timeout_no_removal (startMs T : Nat) (chatId : String)
    (fuel : Nat) (hT : 1 ≤ T) (hfuel : T ≤ fuel) :
    approvalPollLoop fuel (registerPendingApproval startMs {} "a1" chatId T)
        "a1" startMs 0 =
      some ("timeout", startMs + T * 1000,
        registerPendingApproval startMs {} "a1" chatId T) ∧
    amapGet (registerPendingApproval startMs {} "a1" chatId T).pendingApprovals
        "a1" =
      some { approvalId := "a1", chatId := chatId, status := "pending",
             timestamp := startMs, timeout := T * 1000 } ∧
    (∀ (now2 : Nat) (id2 : String), id2 ≠ "a1" → startMs + T * 1000 < now2 →
      amapGet (registerPendingApproval now2
          (registerPendingApproval startMs {} "a1" chatId T) id2 chatId
          T).pendingApprovals "a1" = none) := by
  have hreg : registerPendingApproval startMs {} "a1" chatId T =
      { pendingApprovals := [("a1",
          { approvalId := "a1", chatId := chatId, status := "pending",
            timestamp := startMs, timeout := T * 1000 })] } := by
    simp [registerPendingApproval, cleanupExpiredApprovals, amapSet]
  rw [hreg]
  refine ⟨pollLoop_pending_timeout startMs T chatId fuel 0 (by omega) (by omega),
          by simp [amapGet], ?_⟩
  intro now2 id2 hid hnow
  simp [registerPendingApproval, cleanupExpiredApprovals, amapSet, amapGet, hid]
  rw [if_neg (Ne.symm hid)]
  have h1 : T * 1000 < now2 - startMs := by omega
  simp [amapGet, h1, Nat.sub_self, hid]

/-- Witness for C8: timeout 1 second registered at 0; resolution at
1000 ms with the entry still pending, removed by a registration at
2500 ms. -/
theorem C8_amended_timeout_no_removal_witness :
    approvalPollLoop 1 (registerPendingApproval 0 {} "a1" "chat" 1) "a1" 0 0 =
      some ("timeout", 0 + 1 * 1000, registerPendingApproval 0 {} "a1" "chat" 1) ∧
    amapGet (registerPendingApproval 0 {} "a1" "chat" 1).pendingApprovals "a1" =
      some { approvalId := "a1", chatId := "chat", status := "pending",
             timestamp := 0, timeout := 1 * 1000 } ∧
    amapGet (registerPendingApproval 2500
        (registerPendingApproval 0 {} "a1" "chat" 1) "b2" "chat"
        1).pendingApprovals "a1" = none :=
  ⟨(C8_amended_timeout_no_removal 0 1 "chat" 1 (by decide) (by decide)).1,
   (C8_amended_timeout_no_removal 0 1 "chat" 1 (by decide) (by decide)).2.1,
   (C8_amended_timeout_no_removal 0 1 "chat" 1 (by decide) (by decide)).2.2
     2500 "b2" (by decide) (by decide)⟩

/-! ## Claim C9 -/

/-- Claim C9, as stated, is false: with `x` bound to the literal text
`{y}` and `y` bound to 5, every placeholder of `{x}` resolves, yet a
second application substitutes further (the first output is `{y}`, the
second is `5`). -/
theorem C9_counterexample :
    (∀ m ∈ regexMatches "\x7bx\x7d",
       ¬ (resolveVariablePath parse0 varsC9 (stripBraces m) = Value.undefined)) ∧
    resolveVariablesInString parse0 varsC9 "\x7bx\x7d" = "\x7by\x7d" ∧
    resolveVariablesInString parse0 varsC9
        (resolveVariablesInString parse0 varsC9 "\x7bx\x7d") = "5" ∧
    ¬ (resolveVariablesInString parse0 varsC9
          (resolveVariablesInString parse0 varsC9 "\x7bx\x7d") =
        resolveVariablesInString parse0 varsC9 "\x7bx\x7d") := by decide

theorem substMatches_no_subst (jp : String → Option Value) (vars : ValueAssoc) :
    ∀ (ms : List String) (acc : String),
      (∀ m ∈ ms, resolveVariablePath jp vars (stripBraces m) = Value.undefined) →
      substMatches jp vars ms acc = acc
  | [], _, _ => rfl
  | m :: ms, acc, h => by
    have hm := h m (List.mem_cons_self m ms)
    simp only [substMatches, hm, if_pos rfl]
    exact substMatches_no_subst jp vars ms acc
      (fun x hx => h x (List.mem_cons_of_mem m hx))

/-- Claim C9 (amended): template resolution performs no further
substitution exactly on strings whose every remaining placeholder fails to
resolve; in particular re-applying it to its own output is the identity
when no substituted value introduced a new resolvable placeholder. -/
theorem C9_amended_idempotent_when_unresolvable (jp : String → Option Value)
    (vars : ValueAssoc) (t : String)
    (h : ∀ m ∈ regexMatches t,
        resolveVariablePath jp vars (stripBraces m) = Value.undefined) :
    resolveVariablesInString jp vars t = t :=
  substMatches_no_subst jp vars (regexMatches t) t h

/-- Witness for C9 on a template whose only placeholder is unresolvable. -/
theorem C9_amended_idempotent_when_unresolvable_witness :
    resolveVariablesInString parse0 ValueAssoc.nil "a \x7bz\x7d b" = "a \x7bz\x7d b" :=
  C9_amended_idempotent_when_unresolvable parse0 ValueAssoc.nil "a \x7bz\x7d b"
    (by decide)

/-! ## Claim C10 -/

/-- Claim C10: for an arithmetic node with operation `divide`, a resolved
divisor strictly equal to the number 0 yields `null` (also stored into the
configured output variable) rather than an error or an infinite value, a
divisor not strictly equal to 0 yields the JS quotient, and the node never
throws. -/
theorem C10_divide_guard (jp : String → Option Value) (node : Node) (s : ExecState)
    (hop : node.config.operation = some "divide") :
    (jsStrictEq (resolveValue jp s.vars node.config.value2)
        (.num (.fin (.ofInt 0))) = true →
      (executeArithmeticNode jp node s).1 = .ok .null ∧
      ∀ ov, node.config.outputVariable = some ov → ov.data.isEmpty = false →
        (executeArithmeticNode jp node s).2.vars.lookup ov = some .null) ∧
    (jsStrictEq (resolveValue jp s.vars node.config.value2)
        (.num (.fin (.ofInt 0))) = false →
      (executeArithmeticNode jp node s).1 =
        .ok (jsDiv (resolveValue jp s.vars node.config.value1)
                   (resolveValue jp s.vars node.config.value2))) ∧
    (∀ msg, (executeArithmeticNode jp node s).1 ≠ .thrown msg) := by
  refine ⟨?_, ?_, ?_⟩
  · intro hz
    constructor
    · simp [executeArithmeticNode, hop, hz]
    · intro ov hov hovne
      simp [executeArithmeticNode, hop, hz, truthyStr, hov, hovne,
            ValueAssoc.lookup_set_self]
  · intro hz
    simp [executeArithmeticNode, hop, hz]
  · intro msg
    simp [executeArithmeticNode, hop]

/-- Witness for C10: dividing 6 by 3 (nonzero divisor) and 6 by 0. -/
theorem C10_divide_guard_witness :
    (executeArithmeticNode parse0
        { id := "a", type := "arithmetic",
          config := { value1 := .num (.fin (.ofInt 6)),
                      value2 := .num (.fin (.ofInt 0)),
                      operation := some "divide",
                      outputVariable := some "q" } } {}).1 = .ok .null ∧
    (executeArithmeticNode parse0
        { id := "a", type := "arithmetic",
          config := { value1 := .num (.fin (.ofInt 6)),
                      value2 := .num (.fin (.ofInt 3)),
                      operation := some "divide" } } {}).1 =
      .ok (jsDiv (.num (.fin (.ofInt 6))) (.num (.fin (.ofInt 3)))) :=
  ⟨((C10_divide_guard parse0
      { id := "a", type := "arithmetic",
        config := { value1 := .num (.fin (.ofInt 6)),
                    value2 := .num (.fin (.ofInt 0)),
                    operation := some "divide",
                    outputVariable := some "q" } } {} rfl).1 (by decide)).1,
   (C10_divide_guard parse0
      { id := "a", type := "arithmetic",
        config := { value1 := .num (.fin (.ofInt 6)),
                    value2 := .num (.fin (.ofInt 3)),
                    operation := some "divide" } } {} rfl).2.1 (by decide)⟩

end AgentPad
